import Mathlib

/-!
Verification development for the GEDF-NP scheduler and the watchdog subsystem
of reactor-c (src/core/threaded/scheduler_GEDF_NP.c, scheduler_instance.c,
watchdog.c). The C code is shallowly embedded: scheduler state is a record,
mutex-protected mutations become pure state transformers, the atomic
compare-and-swap on a reaction status becomes a conditional update, and the
blocking worker loop is given fuel. Reactions are identified by natural
numbers; their packed 64-bit `index` priority is an explicit map.
-/

/-- Status of a reaction, from the runtime's lf_types.h (the header is not part
of src). Modelled from the spec: section 3 gives the three states inactive,
queued, running; the scheduler code CASes between `inactive` and `queued`. -/
inductive reaction_status where
  | inactive
  | queued
  | running
  deriving DecidableEq, Repr

/-- Modelled from the spec: pqueue.c is not under src. Section 4.1 specifies a
priority queue ordered by `index` ascending (smaller index pops first).
Insertion just adds the element; ordering is applied at pop time. -/
def pqueue_insert (q : List Nat) (r : Nat) : List Nat :=
  q ++ [r]

/-- Modelled from the spec: pop removes and returns an element of minimal
`index` (the leftmost such element), as section 4.1 requires. Returns the
element and the remaining queue, or `none` on an empty queue. -/
def pqueue_pop (idx : Nat → Nat) : List Nat → Option (Nat × List Nat)
  | [] => none
  | r :: rest =>
    match pqueue_pop idx rest with
    | none => some (r, rest)
    | some (m, rest') =>
      if idx r ≤ idx m then some (r, rest) else some (m, r :: rest')

/-- Scheduler state (scheduler_instance.h fields used by scheduler_GEDF_NP.c).
The single field `queue` models the one pqueue that both
`triggered_reactions[0]` and `executing_reactions` point to after
`lf_sched_init` (scheduler_GEDF_NP.c lines 196-206).  `statuses` maps each
reaction id to its status word (reaction_t.status). -/
structure sched_state where
  statuses : Nat → reaction_status
  queue : List Nat
  next_reaction_level : Nat
  max_reaction_level : Nat
  should_stop : Bool
  number_of_idle_workers : Nat
  number_of_workers : Nat

/-- Embeds `_lf_sched_insert_reaction` (scheduler_GEDF_NP.c lines 37-43):
insert the reaction into `triggered_reactions[0]` under the queue mutex. -/
def _lf_sched_insert_reaction (s : sched_state) (r : Nat) : sched_state :=
  { s with queue := pqueue_insert s.queue r }

/-- Embeds `lf_scheduler_trigger_reaction` (scheduler_GEDF_NP.c lines 294-301):
if the reaction is NULL or the CAS `inactive -> queued` on its status fails,
return without changes; otherwise insert the reaction into the queue. -/
def lf_scheduler_trigger_reaction (s : sched_state) (reaction : Option Nat) : sched_state :=
  match reaction with
  | none => s
  | some r =>
    if s.statuses r = reaction_status.inactive then
      _lf_sched_insert_reaction
        { s with statuses := fun n => if n = r then reaction_status.queued else s.statuses n } r
    else s

/-- Embeds `lf_sched_done_with_reaction` (scheduler_GEDF_NP.c lines 271-276):
CAS the status `queued -> inactive`; on failure the C program calls
`lf_print_error_and_exit`, modelled as `none` (abort). -/
def lf_sched_done_with_reaction (s : sched_state) (done_reaction : Nat) : Option sched_state :=
  if s.statuses done_reaction = reaction_status.queued then
    some { s with statuses :=
            fun n => if n = done_reaction then reaction_status.inactive else s.statuses n }
  else none

/-- Embeds `_lf_sched_notify_workers` (scheduler_GEDF_NP.c lines 79-93).
Returns the new state together with the number of semaphore permits released:
`workers_to_awaken - 1` released only when `workers_to_awaken > 1`. -/
def _lf_sched_notify_workers (s : sched_state) : sched_state × Nat :=
  let workers_to_awaken := min s.number_of_idle_workers s.queue.length
  ({ s with number_of_idle_workers := s.number_of_idle_workers - workers_to_awaken },
   if 1 < workers_to_awaken then workers_to_awaken - 1 else 0)

/-- Embeds `lf_sched_get_ready_reaction` (scheduler_GEDF_NP.c lines 235-261).
The while loop gets fuel; `none` means the fuel ran out while the worker was
still looping.  `some (none, s)` is the C function returning NULL in state s;
`some (some r, s)` returns reaction r.  The effect of `_lf_sched_wait_for_work`
(which may advance the tag, distribute reactions, or set should_stop) is
abstracted as an arbitrary state transformer `waitStep`, so the theorems below
hold whatever that call does. -/
def lf_sched_get_ready_reaction (idx : Nat → Nat) (waitStep : sched_state → sched_state) :
    Nat → sched_state → Option (Option Nat × sched_state)
  | 0, _ => none
  | fuel + 1, s =>
    if s.should_stop = true then some (none, s)
    else
      match pqueue_pop idx s.queue with
      | some (r, q) => some (some r, { s with queue := q })
      | none => lf_sched_get_ready_reaction idx waitStep fuel (waitStep s)

/-- Modelled from the spec: `try_advance_level` lives in
scheduler_sync_tag_advance.c, which is not under src.  Section 6 specifies it
as incrementing the level (the federated blocking is irrelevant here). -/
def try_advance_level (level : Nat) : Nat :=
  level + 1

/-- The `triggered_reactions` array as allocated by `lf_sched_init`
(scheduler_GEDF_NP.c lines 196-202): `calloc(1, sizeof(pqueue_t*))` followed by
initialization of the single slot — exactly one (empty) reaction queue. -/
def lf_sched_init_triggered_reactions : List (List Nat) :=
  [[]]

/-- Embeds `_lf_sched_distribute_ready_reactions` (scheduler_GEDF_NP.c lines
52-72) over an explicit `triggered_reactions` array of queues.  Arguments after
the array: loop fuel, `next_reaction_level`, `max_reaction_level`.  Returns the
list of array indices the loop inspected (each is `next_reaction_level - 1`
after `try_advance_level` ran), the final level, and the returned count.  An
out-of-bounds inspection — undefined behavior in the C — is modelled as
reading an empty queue, which keeps the loop going. -/
def _lf_sched_distribute_ready_reactions (queues : List (List Nat)) :
    Nat → Nat → Nat → List Nat × Nat × Nat
  | 0, level, _ => ([], level, 0)
  | fuel + 1, level, max_reaction_level =>
    if level ≤ max_reaction_level then
      let level' := try_advance_level level
      let tmp_queue := queues.getD (level' - 1) []
      if tmp_queue.length ≠ 0 then ([level' - 1], level', tmp_queue.length)
      else
        let rest := _lf_sched_distribute_ready_reactions queues fuel level' max_reaction_level
        ((level' - 1) :: rest.1, rest.2.1, rest.2.2)
    else ([], level, 0)

/-- Scheduler parameters (scheduler_instance.h, sched_params_t): the
`num_reactions_per_level` array pointer (None models NULL) and its length. -/
structure sched_params_t where
  num_reactions_per_level : Option (List Nat)
  num_reactions_per_level_size : Nat
  deriving DecidableEq, Repr

/-- Modelled from the spec: DEFAULT_MAX_REACTION_LEVEL is defined in
scheduler_instance.h, which is not under src; the spec only names it.  Its
concrete value is irrelevant to every theorem below. -/
def DEFAULT_MAX_REACTION_LEVEL : Nat :=
  100

/-- One more than the largest size_t value; size_t subtraction in the C wraps
modulo this. -/
def SIZE_T_COUNT : Nat :=
  2 ^ 64

/-- The fields of `_lf_sched_instance_t` that `init_sched_instance` sets
(scheduler_instance.c lines 24-41); `calloc` zero-initializes them first. -/
structure sched_instance_t where
  max_reaction_level : Nat
  number_of_workers : Nat
  next_reaction_level : Nat
  should_stop : Bool
  deriving DecidableEq, Repr

/-- Embeds `init_sched_instance` (scheduler_instance.c lines 6-43).  The first
argument is the current value of `*instance` (None models NULL).  If already
initialized it returns unchanged with `false`.  Otherwise the instance is
calloc'ed to zero, `max_reaction_level` is set to DEFAULT_MAX_REACTION_LEVEL
when `params == NULL || params->num_reactions_per_level_size == 0`, and then
overwritten with `num_reactions_per_level_size - 1` (size_t arithmetic, which
wraps at zero) whenever `params != NULL && params->num_reactions_per_level !=
NULL`; finally workers, `next_reaction_level = 1` and `should_stop = false`
are recorded and `true` is returned. -/
def init_sched_instance (inst : Option sched_instance_t) (number_of_workers : Nat)
    (params : Option sched_params_t) : Option sched_instance_t × Bool :=
  match inst with
  | some i => (some i, false)
  | none =>
    let m0 : Nat := 0
    let m1 : Nat :=
      match params with
      | none => DEFAULT_MAX_REACTION_LEVEL
      | some p =>
        if p.num_reactions_per_level_size = 0 then DEFAULT_MAX_REACTION_LEVEL else m0
    let m2 : Nat :=
      match params with
      | none => m1
      | some p =>
        match p.num_reactions_per_level with
        | none => m1
        | some _ => (p.num_reactions_per_level_size + (SIZE_T_COUNT - 1)) % SIZE_T_COUNT
    (some { max_reaction_level := m2, number_of_workers := number_of_workers,
            next_reaction_level := 1, should_stop := false }, true)

/-- The scheduler operations a thread of the runtime can perform on the shared
scheduler state: trigger a reaction, pop one from the executing queue (the
popping step inside `lf_sched_get_ready_reaction`), or report one done. -/
inductive sched_op where
  | trigger (r : Nat)
  | pop
  | done (r : Nat)
  deriving DecidableEq, Repr

/-- Scheduler state extended with the multiset of popped-but-not-yet-done
reactions (the reactions some worker is currently executing). -/
structure run_state where
  sched : sched_state
  executing : List Nat

/-- Modelled from the spec: the worker protocol of reactor_threaded.c (not
under src) — a worker executes only reactions it popped, and calls
`lf_sched_done_with_reaction` exactly on those.  One interleaved step of the
runtime; `done` on a reaction no worker is executing is not a run of the
protocol (`none`), and a failed CAS in done aborts the program (`none`). -/
def protocol_step (idx : Nat → Nat) (rs : run_state) : sched_op → Option run_state
  | sched_op.trigger r => some { rs with sched := lf_scheduler_trigger_reaction rs.sched (some r) }
  | sched_op.pop =>
    match pqueue_pop idx rs.sched.queue with
    | none => some rs
    | some (r, q) => some { sched := { rs.sched with queue := q }, executing := r :: rs.executing }
  | sched_op.done r =>
    if r ∈ rs.executing then
      (lf_sched_done_with_reaction rs.sched r).map
        (fun s => { sched := s, executing := rs.executing.erase r })
    else none

/-- Runs a sequence of interleaved scheduler operations. -/
def protocol_run (idx : Nat → Nat) : List sched_op → run_state → Option run_state
  | [], rs => some rs
  | op :: ops, rs =>
    match protocol_step idx rs op with
    | none => none
    | some rs' => protocol_run idx ops rs'

/-- The invariant relating queue membership and reaction status in every
protocol-reachable state: the queue holds no duplicates, every queued-up
reaction has status `queued` and is not executing, every executing reaction
also has status `queued`, and no reaction executes twice at once. -/
def queue_status_inv (rs : run_state) : Prop :=
  rs.sched.queue.Nodup ∧ rs.executing.Nodup ∧
  (∀ r ∈ rs.sched.queue, rs.sched.statuses r = reaction_status.queued ∧ r ∉ rs.executing) ∧
  (∀ r ∈ rs.executing, rs.sched.statuses r = reaction_status.queued)

instance (rs : run_state) : Decidable (queue_status_inv rs) := by
  unfold queue_status_inv
  infer_instance

/-- NEVER, the distinguished instant meaning no time (tag.h, not under src;
modelled from the spec, section 3).  Its value in the C runtime is INT64_MIN. -/
def NEVER : Int :=
  -(2 ^ 63)

/-- The watchdog fields that watchdog.c reads and writes (watchdog.h is not
under src; fields follow the spec, section 3).  Thread handle, condition
variable, handler and mutex are represented by their effects only. -/
structure watchdog_t where
  expiration : Int
  active : Bool
  terminate : Bool
  deriving DecidableEq, Repr

/-- Embeds `lf_watchdog_stop` (watchdog.c lines 159-170): a no-op when the
watchdog is not active; otherwise sets expiration to NEVER and signals the
condition variable (the signal has no effect on these fields). -/
def lf_watchdog_stop (w : watchdog_t) : watchdog_t :=
  if w.active = false then w
  else { w with expiration := NEVER }

/-- Embeds the watchdog-level `_lf_watchdog_terminate` (watchdog.c lines
173-179): sets the terminate flag, sets expiration to NEVER, and signals. -/
def _lf_watchdog_terminate_watchdog (w : watchdog_t) : watchdog_t :=
  { w with terminate := true, expiration := NEVER }

/-- Embeds the environment-level `_lf_watchdog_terminate` (watchdog.c lines
39-52), the shutdown barrier the spec calls wait_all: for each watchdog it
locks the reactor mutex, calls `lf_watchdog_stop`, unlocks, and joins the
thread.  Lock, unlock and join do not change watchdog fields, so the state
effect is the per-watchdog effect of stop.  (The C file declares a second
function of the same name over watchdog_t, embedded above as
`_lf_watchdog_terminate_watchdog`; this one never calls it.) -/
def _lf_watchdog_terminate (watchdogs : List watchdog_t) : List watchdog_t :=
  watchdogs.map lf_watchdog_stop

/-- The values of the watchdog fields and of physical time as observed by the
watchdog thread at one wake-up (it holds the reactor mutex whenever it reads
them, so one observation is consistent). -/
structure watchdog_obs where
  expiration : Int
  terminate : Bool
  physical_time : Int
  deriving DecidableEq, Repr

/-- Embeds the loop of `watchdog_wait` (watchdog.c lines 54-64) over the
sequence of observations made at entry and after each `lf_cond_timedwait`
wake-up: keep waiting while expiration is not NEVER, physical time is before
expiration, and terminate is unset; return the observation on which the loop
exits, or `none` if the observation list runs out while still waiting. -/
def watchdog_wait_exit : List watchdog_obs → Option watchdog_obs
  | [] => none
  | o :: rest =>
    if o.expiration ≠ NEVER ∧ o.physical_time < o.expiration ∧ o.terminate = false then
      watchdog_wait_exit rest
    else some o

/-- What one iteration of `watchdog_thread_main` does after `watchdog_wait`
returns: exit the loop (goto terminate), or continue, recording whether the
handler was invoked and the value of `active` afterwards. -/
inductive wd_step_result where
  | exited
  | continued (handler_invoked : Bool) (active_after : Bool)
  deriving DecidableEq, Repr

/-- Embeds the tail of the `watchdog_thread_main` loop body (watchdog.c lines
119-136), which runs under the reactor mutex on the same observation on which
`watchdog_wait` exited (the field read on line 126 is spelled `expirateion` in
the source, a typo for `expiration` — the struct declaration is not under src
and the spec, section 9, records it as a typo): if terminate, exit the loop;
if expiration is NEVER, continue without invoking the handler (`active` stays
true, as set by `watchdog_wait`); otherwise invoke the handler, set `active`
to false, and continue. -/
def watchdog_post_wait (o : watchdog_obs) : wd_step_result :=
  if o.terminate = true then wd_step_result.exited
  else if o.expiration = NEVER then wd_step_result.continued false true
  else wd_step_result.continued true false

/-- One full pass of the main loop from entry into `watchdog_wait`: the
observation on which the wait exits together with what the loop body then
does; `none` while the thread is still waiting. -/
def watchdog_iteration (obs : List watchdog_obs) : Option (watchdog_obs × wd_step_result) :=
  (watchdog_wait_exit obs).map (fun o => (o, watchdog_post_wait o))

/-- The identity priority map: reaction id used directly as its index. -/
def idx_id : Nat → Nat := fun r => r

/-- A freshly initialized scheduler state with two workers: every reaction
inactive, the queue empty, levels as after `init_sched_instance`. -/
def s0 : sched_state :=
  { statuses := fun _ => reaction_status.inactive, queue := [], next_reaction_level := 1,
    max_reaction_level := 1, should_stop := false, number_of_idle_workers := 0,
    number_of_workers := 2 }

/-- The fresh extended state: no worker is executing anything. -/
def rs0 : run_state :=
  { sched := s0, executing := [] }

/-- The extended state after one trigger of reaction 0 from the fresh state. -/
def rs_trig0 : run_state :=
  { sched := lf_scheduler_trigger_reaction s0 (some 0), executing := [] }

/-- A packed-index map for three reactions: reactions 0 and 1 sit at level 1
(indices 100 and 101), reaction 2 at level 2 (index 200); smaller index means
higher priority, and the level occupies the high-order part as LF_LEVEL
prescribes. -/
def idx_levels : Nat → Nat := fun r => if r = 2 then 200 else 100 + r

/-- The level encoded in the high-order bits of `idx_levels` (what the C macro
LF_LEVEL extracts): reactions 0 and 1 are at level 1, reaction 2 at level 2. -/
def lf_level_of : Nat → Nat := fun r => if r = 2 then 2 else 1

/-- A state with three idle workers and two reactions on the executing queue,
used to instantiate the notify-workers theorem. -/
def s_notify : sched_state :=
  { s0 with number_of_idle_workers := 3, queue := [7, 8] }

/-- A state in which the stop tag has been reached. -/
def s_stop : sched_state :=
  { s0 with should_stop := true }

/-- A wake-up trace for the watchdog thread: armed for instant 1000, woken
spuriously at time 500, then woken at time 1200 past the expiration. -/
def obs_expired : List watchdog_obs :=
  [{ expiration := 1000, terminate := false, physical_time := 500 },
   { expiration := 1000, terminate := false, physical_time := 1200 }]

/-- Popping returns a permutation witness: the popped element consed onto the
remaining queue is a permutation of the original queue. -/
theorem pqueue_pop_perm (idx : Nat → Nat) :
    ∀ q r q', pqueue_pop idx q = some (r, q') → (r :: q').Perm q := by
  intro q
  induction q with
  | nil => intro r q' h; simp [pqueue_pop] at h
  | cons a rest ih =>
    intro r q' h
    simp only [pqueue_pop] at h
    cases hrest : pqueue_pop idx rest with
    | none =>
      simp only [hrest] at h
      injection h with h
      injection h with h1 h2
      subst h1; subst h2
      exact List.Perm.refl _
    | some p =>
      obtain ⟨m, rest'⟩ := p
      simp only [hrest] at h
      by_cases hle : idx a ≤ idx m
      · rw [if_pos hle] at h
        injection h with h
        injection h with h1 h2
        subst h1; subst h2
        exact List.Perm.refl _
      · rw [if_neg hle] at h
        injection h with h
        injection h with h1 h2
        subst h1; subst h2
        exact List.Perm.trans (List.Perm.swap a m rest') ((ih m rest' hrest).cons a)

/-- The popped element was a member of the queue. -/
theorem pqueue_pop_mem {idx : Nat → Nat} {q : List Nat} {r : Nat} {q' : List Nat}
    (h : pqueue_pop idx q = some (r, q')) : r ∈ q :=
  (pqueue_pop_perm idx q r q' h).subset (List.mem_cons_self r q')

/-- C1: starting from a reaction with status inactive, a sequence of n >= 1
calls to lf_scheduler_trigger_reaction on it within one tag is equal to a
single call; that single call flips the status to queued by the CAS and
inserts the reaction into the reaction queue exactly once, and every further
call is a no-op that changes neither the status nor the queue. -/
theorem c1_trigger_idempotent (s : sched_state) (r : Nat) (n : Nat)
    (hstat : s.statuses r = reaction_status.inactive) (hn : 1 ≤ n) :
    (fun t => lf_scheduler_trigger_reaction t (some r))^[n] s =
      lf_scheduler_trigger_reaction s (some r) ∧
    (lf_scheduler_trigger_reaction s (some r)).statuses r = reaction_status.queued ∧
    (lf_scheduler_trigger_reaction s (some r)).queue = s.queue ++ [r] ∧
    lf_scheduler_trigger_reaction (lf_scheduler_trigger_reaction s (some r)) (some r) =
      lf_scheduler_trigger_reaction s (some r) := by
  have hfirst : (lf_scheduler_trigger_reaction s (some r)).statuses r =
      reaction_status.queued := by
    simp [lf_scheduler_trigger_reaction, hstat, _lf_sched_insert_reaction]
  have hqueue : (lf_scheduler_trigger_reaction s (some r)).queue = s.queue ++ [r] := by
    simp [lf_scheduler_trigger_reaction, hstat, _lf_sched_insert_reaction, pqueue_insert]
  have hnoop : lf_scheduler_trigger_reaction (lf_scheduler_trigger_reaction s (some r))
      (some r) = lf_scheduler_trigger_reaction s (some r) := by
    generalize hs1 : lf_scheduler_trigger_reaction s (some r) = s1 at hfirst ⊢
    simp [lf_scheduler_trigger_reaction, hfirst]
  refine ⟨?_, hfirst, hqueue, hnoop⟩
  obtain ⟨m, rfl⟩ : ∃ m, n = m + 1 := ⟨n - 1, by omega⟩
  clear hn
  induction m with
  | zero => simp
  | succ k ihk =>
    rw [Function.iterate_succ_apply', ihk]
    exact hnoop

/-- Witness for C1: the fresh state with reaction 0 inactive, two calls. -/
theorem c1_trigger_idempotent_witness :
    s0.statuses 0 = reaction_status.inactive ∧ 1 ≤ 2 ∧
    ((fun t => lf_scheduler_trigger_reaction t (some 0))^[2] s0 =
        lf_scheduler_trigger_reaction s0 (some 0) ∧
      (lf_scheduler_trigger_reaction s0 (some 0)).statuses 0 = reaction_status.queued ∧
      (lf_scheduler_trigger_reaction s0 (some 0)).queue = s0.queue ++ [0] ∧
      lf_scheduler_trigger_reaction (lf_scheduler_trigger_reaction s0 (some 0)) (some 0) =
        lf_scheduler_trigger_reaction s0 (some 0)) :=
  ⟨rfl, by omega, c1_trigger_idempotent s0 0 2 rfl (by omega)⟩

/-- C2: _lf_sched_notify_workers computes k as the minimum of the idle-worker
count and the executing-queue size, decreases the idle count by exactly k, and
releases k - 1 semaphore permits when k > 1 and none when k <= 1; whenever
k >= 1 the number of permits released differs from k. -/
theorem c2_notify_workers (s : sched_state) :
    (_lf_sched_notify_workers s).1.number_of_idle_workers =
      s.number_of_idle_workers - min s.number_of_idle_workers s.queue.length ∧
    (_lf_sched_notify_workers s).2 =
      (if 1 < min s.number_of_idle_workers s.queue.length then
        min s.number_of_idle_workers s.queue.length - 1 else 0) ∧
    (1 ≤ min s.number_of_idle_workers s.queue.length →
      (_lf_sched_notify_workers s).2 ≠ min s.number_of_idle_workers s.queue.length) := by
  refine ⟨rfl, rfl, ?_⟩
  intro hk
  have hrel : (_lf_sched_notify_workers s).2 =
      (if 1 < min s.number_of_idle_workers s.queue.length then
        min s.number_of_idle_workers s.queue.length - 1 else 0) := rfl
  rw [hrel]
  split <;> omega

/-- Witness for C2: three idle workers and two queued reactions, so k = 2, the
idle count drops to 1 and exactly one permit is released, which differs from
k. -/
theorem c2_notify_workers_witness :
    (_lf_sched_notify_workers s_notify).1.number_of_idle_workers =
      s_notify.number_of_idle_workers - min s_notify.number_of_idle_workers s_notify.queue.length ∧
    (_lf_sched_notify_workers s_notify).2 =
      (if 1 < min s_notify.number_of_idle_workers s_notify.queue.length then
        min s_notify.number_of_idle_workers s_notify.queue.length - 1 else 0) ∧
    (1 ≤ min s_notify.number_of_idle_workers s_notify.queue.length →
      (_lf_sched_notify_workers s_notify).2 ≠
        min s_notify.number_of_idle_workers s_notify.queue.length) :=
  c2_notify_workers s_notify

/-- C7: from an inactive reaction, a successful trigger makes it queued;
done_with_reaction on it then succeeds (no abort), restoring inactive, after
which a further trigger succeeds again; and done_with_reaction aborts exactly
when the status at the call differs from queued. -/
theorem c7_trigger_done_roundtrip (s : sched_state) (r : Nat)
    (hstat : s.statuses r = reaction_status.inactive) :
    (lf_scheduler_trigger_reaction s (some r)).statuses r = reaction_status.queued ∧
    (∃ s2, lf_sched_done_with_reaction (lf_scheduler_trigger_reaction s (some r)) r = some s2 ∧
      s2.statuses r = reaction_status.inactive ∧
      (lf_scheduler_trigger_reaction s2 (some r)).statuses r = reaction_status.queued) ∧
    (∀ t : sched_state, lf_sched_done_with_reaction t r = none ↔
      t.statuses r ≠ reaction_status.queued) := by
  have hfirst : (lf_scheduler_trigger_reaction s (some r)).statuses r =
      reaction_status.queued := by
    simp [lf_scheduler_trigger_reaction, hstat, _lf_sched_insert_reaction]
  refine ⟨hfirst, ?_, ?_⟩
  · generalize lf_scheduler_trigger_reaction s (some r) = s1 at hfirst
    refine ⟨{ s1 with statuses :=
        fun n => if n = r then reaction_status.inactive else s1.statuses n }, ?_, ?_, ?_⟩
    · simp [lf_sched_done_with_reaction, hfirst]
    · simp
    · simp [lf_scheduler_trigger_reaction, _lf_sched_insert_reaction]
  · intro t
    constructor
    · intro hnone hq
      simp [lf_sched_done_with_reaction, hq] at hnone
    · intro hq
      simp [lf_sched_done_with_reaction, hq]

/-- Witness for C7: the fresh state and reaction 0. -/
theorem c7_trigger_done_roundtrip_witness :
    s0.statuses 0 = reaction_status.inactive ∧
    ((lf_scheduler_trigger_reaction s0 (some 0)).statuses 0 = reaction_status.queued ∧
      (∃ s2, lf_sched_done_with_reaction (lf_scheduler_trigger_reaction s0 (some 0)) 0 =
          some s2 ∧ s2.statuses 0 = reaction_status.inactive ∧
        (lf_scheduler_trigger_reaction s2 (some 0)).statuses 0 = reaction_status.queued) ∧
      (∀ t : sched_state, lf_sched_done_with_reaction t 0 = none ↔
        t.statuses 0 ≠ reaction_status.queued)) :=
  ⟨rfl, c7_trigger_done_roundtrip s0 0 rfl⟩

/-- On the observation where the watchdog_wait loop exits, its continuation
condition no longer holds. -/
theorem watchdog_wait_exit_cond : ∀ obs o, watchdog_wait_exit obs = some o →
    ¬(o.expiration ≠ NEVER ∧ o.physical_time < o.expiration ∧ o.terminate = false) := by
  intro obs
  induction obs with
  | nil => intro o h; simp [watchdog_wait_exit] at h
  | cons a rest ih =>
    intro o h
    simp only [watchdog_wait_exit] at h
    split at h
    · exact ih o h
    · next hcond =>
        injection h with h
        subst h
        exact hcond

/-- C8: in every iteration of the watchdog thread main loop, the handler is
invoked after the wake on which watchdog_wait returns if and only if, at that
observation, terminate is false, expiration is not NEVER, and the physical
time read at the wake is at least the expiration; and whenever the handler is
invoked, active is false afterwards and the loop continues. -/
theorem c8_watchdog_handler_iff (obs : List watchdog_obs) (o : watchdog_obs)
    (res : wd_step_result) (h : watchdog_iteration obs = some (o, res)) :
    ((∃ a, res = wd_step_result.continued true a) ↔
      (o.terminate = false ∧ o.expiration ≠ NEVER ∧ o.expiration ≤ o.physical_time)) ∧
    (∀ a, res = wd_step_result.continued true a → a = false) := by
  have hsplit : watchdog_wait_exit obs = some o ∧ res = watchdog_post_wait o := by
    unfold watchdog_iteration at h
    cases hwe : watchdog_wait_exit obs with
    | none => rw [hwe] at h; exact absurd h (by simp)
    | some o' =>
      rw [hwe] at h
      simp only [Option.map_some'] at h
      injection h with h
      injection h with h1 h2
      subst h1
      exact ⟨rfl, h2.symm⟩
  obtain ⟨hexit, hres⟩ := hsplit
  have hcond := watchdog_wait_exit_cond obs o hexit
  subst hres
  by_cases ht : o.terminate = true
  · simp [watchdog_post_wait, ht]
  · have ht' : o.terminate = false := by simpa using ht
    by_cases he : o.expiration = NEVER
    · simp [watchdog_post_wait, ht', he]
    · simp only [ht', he, ne_eq, not_false_eq_true, and_true, true_and] at hcond ⊢
      simp only [watchdog_post_wait, ht', he, if_false, Bool.false_eq_true]
      constructor
      · constructor
        · intro _
          omega
        · intro _
          exact ⟨false, rfl⟩
      · intro a ha
        injection ha with h1 h2
        exact h2.symm

/-- Witness for C8: a watchdog armed for instant 1000 whose thread wakes at
time 1200; the iteration invokes the handler, clears active, continues. -/
theorem c8_watchdog_handler_iff_witness :
    watchdog_iteration obs_expired =
      some ({ expiration := 1000, terminate := false, physical_time := 1200 },
        wd_step_result.continued true false) ∧
    (((∃ a, wd_step_result.continued true false = wd_step_result.continued true a) ↔
      ((false : Bool) = false ∧ (1000 : Int) ≠ NEVER ∧ (1000 : Int) ≤ 1200)) ∧
    (∀ a, wd_step_result.continued true false = wd_step_result.continued true a →
      a = false)) :=
  ⟨by decide,
   c8_watchdog_handler_iff obs_expired
     { expiration := 1000, terminate := false, physical_time := 1200 }
     (wd_step_result.continued true false) (by decide)⟩

/-- C3 (code bug): the environment-level _lf_watchdog_terminate — the wait_all
shutdown barrier — only calls lf_watchdog_stop on each watchdog under its
reactor mutex before joining the thread; it never performs the
watchdog-level terminate call, so no terminate flag is ever set, and an
inactive watchdog is left entirely untouched.  The claim (and the function's
own doc comment, which promises to terminate all watchdog threads) requires
terminate to be set to true for every watchdog. -/
theorem c3_wait_all_never_terminates :
    (∀ ws : List watchdog_t,
      (_lf_watchdog_terminate ws).map (fun w => w.terminate) =
        ws.map (fun w => w.terminate)) ∧
    _lf_watchdog_terminate
        [{ expiration := NEVER, active := false, terminate := false }] =
      [{ expiration := NEVER, active := false, terminate := false }] ∧
    (_lf_watchdog_terminate_watchdog
        { expiration := NEVER, active := false, terminate := false }).terminate = true := by
  refine ⟨?_, by decide, by decide⟩
  intro ws
  unfold _lf_watchdog_terminate
  rw [List.map_map]
  apply List.map_congr_left
  intro w _
  show (lf_watchdog_stop w).terminate = w.terminate
  unfold lf_watchdog_stop
  split <;> rfl

/-- C6: whatever wait_for_work does (any state transformer w), a returning run
of lf_sched_get_ready_reaction returns NULL exactly on observing should_stop
true at the top-of-loop check; a non-NULL return is the reaction popped from
the executing queue in the state reached; and every earlier loop pass saw
should_stop false, popped nothing, entered wait_for_work (one application of
w) and re-checked should_stop. -/
theorem c6_get_ready_reaction (idx : Nat → Nat) (w : sched_state → sched_state) :
    (∀ fuel s, s.should_stop = true →
      lf_sched_get_ready_reaction idx w (fuel + 1) s = some (none, s)) ∧
    (∀ fuel s out s', lf_sched_get_ready_reaction idx w fuel s = some (out, s') →
      ∃ n,
        (∀ m, m < n → ((w^[m]) s).should_stop = false ∧
          pqueue_pop idx ((w^[m]) s).queue = none) ∧
        (out = none → s' = (w^[n]) s ∧ ((w^[n]) s).should_stop = true) ∧
        (∀ r, out = some r → ((w^[n]) s).should_stop = false ∧
          pqueue_pop idx ((w^[n]) s).queue = some (r, s'.queue) ∧
          s' = { (w^[n]) s with queue := s'.queue })) := by
  constructor
  · intro fuel s h
    simp [lf_sched_get_ready_reaction, h]
  · intro fuel
    induction fuel with
    | zero =>
      intro s out s' h
      simp [lf_sched_get_ready_reaction] at h
    | succ k ih =>
      intro s out s' h
      simp only [lf_sched_get_ready_reaction] at h
      by_cases hstop : s.should_stop = true
      · rw [if_pos hstop] at h
        injection h with h
        injection h with h1 h2
        subst h1
        subst h2
        refine ⟨0, ?_, ?_, ?_⟩
        · intro m hm
          exact absurd hm (Nat.not_lt_zero m)
        · intro _
          simp [hstop]
        · intro r hr
          simp at hr
      · rw [if_neg hstop] at h
        have hstop' : s.should_stop = false := by simpa using hstop
        cases hpop : pqueue_pop idx s.queue with
        | some p =>
          obtain ⟨r, q⟩ := p
          simp only [hpop] at h
          injection h with h
          injection h with h1 h2
          subst h1
          subst h2
          refine ⟨0, ?_, ?_, ?_⟩
          · intro m hm
            exact absurd hm (Nat.not_lt_zero m)
          · intro hc
            simp at hc
          · intro r' hr'
            injection hr' with hrr
            subst hrr
            exact ⟨hstop', by simpa using hpop, rfl⟩
        | none =>
          simp only [hpop] at h
          obtain ⟨n, hpre, hnone, hsome⟩ := ih (w s) out s' h
          refine ⟨n + 1, ?_, ?_, ?_⟩
          · intro m hm
            cases m with
            | zero => simpa using ⟨hstop', hpop⟩
            | succ j =>
              have hj := hpre j (by omega)
              rw [Function.iterate_succ_apply]
              exact hj
          · intro ho
            obtain ⟨ha, hb⟩ := hnone ho
            rw [Function.iterate_succ_apply]
            exact ⟨ha, hb⟩
          · intro r hr
            obtain ⟨ha, hb, hc⟩ := hsome r hr
            rw [Function.iterate_succ_apply]
            exact ⟨ha, hb, hc⟩

/-- Witness for C6: in a state where the stop flag is set, the worker loop
returns NULL at once, by the first part of the theorem. -/
theorem c6_get_ready_reaction_witness :
    s_stop.should_stop = true ∧
    lf_sched_get_ready_reaction idx_id id 1 s_stop = some (none, s_stop) :=
  ⟨rfl, (c6_get_ready_reaction idx_id id).1 0 s_stop rfl⟩

/-- One protocol step preserves the queue/status invariant. -/
theorem protocol_step_inv (idx : Nat → Nat) (rs rs' : run_state) (op : sched_op)
    (hinv : queue_status_inv rs) (h : protocol_step idx rs op = some rs') :
    queue_status_inv rs' := by
  obtain ⟨hnq, hne, hq, he⟩ := hinv
  cases op with
  | trigger r =>
    simp only [protocol_step] at h
    injection h with h
    subst h
    by_cases hstat : rs.sched.statuses r = reaction_status.inactive
    · have hrq : r ∉ rs.sched.queue := by
        intro hr
        have h2 := (hq r hr).1
        rw [hstat] at h2
        exact absurd h2 (by decide)
      have hrx : r ∉ rs.executing := by
        intro hr
        have h2 := he r hr
        rw [hstat] at h2
        exact absurd h2 (by decide)
      unfold queue_status_inv
      simp only [lf_scheduler_trigger_reaction, hstat, if_pos, _lf_sched_insert_reaction,
        pqueue_insert]
      refine ⟨?_, hne, ?_, ?_⟩
      · simp [List.nodup_append, hnq, hrq]
      · intro x hx
        rcases List.mem_append.mp hx with hx' | hx'
        · have hxr : x ≠ r := fun hxx => hrq (hxx ▸ hx')
          refine ⟨?_, (hq x hx').2⟩
          simpa [hxr] using (hq x hx').1
        · have hxr : x = r := by simpa using hx'
          subst hxr
          exact ⟨by simp, hrx⟩
      · intro x hx
        have hxr : x ≠ r := fun hxx => hrx (hxx ▸ hx)
        simpa [hxr] using he x hx
    · simp only [lf_scheduler_trigger_reaction, hstat, if_false]
      exact ⟨hnq, hne, hq, he⟩
  | pop =>
    simp only [protocol_step] at h
    cases hpop : pqueue_pop idx rs.sched.queue with
    | none =>
      simp only [hpop] at h
      injection h with h
      subst h
      exact ⟨hnq, hne, hq, he⟩
    | some p =>
      obtain ⟨r, q⟩ := p
      simp only [hpop] at h
      injection h with h
      subst h
      have hperm := pqueue_pop_perm idx rs.sched.queue r q hpop
      have hndc : (r :: q).Nodup := hperm.nodup_iff.mpr hnq
      have hrnq : r ∉ q := (List.nodup_cons.mp hndc).1
      have hndq : q.Nodup := (List.nodup_cons.mp hndc).2
      have hsub : ∀ x ∈ q, x ∈ rs.sched.queue := fun x hx =>
        hperm.subset (List.mem_cons_of_mem r hx)
      have hrm : r ∈ rs.sched.queue := hperm.subset (List.mem_cons_self r q)
      refine ⟨hndq, List.nodup_cons.mpr ⟨(hq r hrm).2, hne⟩, ?_, ?_⟩
      · intro x hx
        have hxq := hsub x hx
        refine ⟨(hq x hxq).1, ?_⟩
        intro hmemc
        rcases List.mem_cons.mp hmemc with hxr | hxe
        · exact hrnq (hxr ▸ hx)
        · exact (hq x hxq).2 hxe
      · intro x hx
        rcases List.mem_cons.mp hx with hxr | hxe
        · subst hxr
          exact (hq x hrm).1
        · exact he x hxe
  | done r =>
    simp only [protocol_step] at h
    by_cases hmem : r ∈ rs.executing
    · rw [if_pos hmem] at h
      unfold lf_sched_done_with_reaction at h
      by_cases hst : rs.sched.statuses r = reaction_status.queued
      · rw [if_pos hst] at h
        simp only [Option.map_some'] at h
        injection h with h
        subst h
        refine ⟨hnq, hne.erase r, ?_, ?_⟩
        · intro x hx
          have hxr : x ≠ r := fun hxx => (hq x hx).2 (hxx ▸ hmem)
          refine ⟨?_, ?_⟩
          · show (if x = r then reaction_status.inactive else rs.sched.statuses x) =
              reaction_status.queued
            simpa [hxr] using (hq x hx).1
          · intro hxe
            exact (hq x hx).2 (List.mem_of_mem_erase hxe)
        · intro x hx
          have hxmem := List.mem_of_mem_erase hx
          have hxr : x ≠ r := ((List.Nodup.mem_erase_iff hne).mp hx).1
          show (if x = r then reaction_status.inactive else rs.sched.statuses x) =
            reaction_status.queued
          simpa [hxr] using he x hxmem
      · rw [if_neg hst] at h
        simp at h
    · rw [if_neg hmem] at h
      simp at h

/-- A whole protocol run preserves the queue/status invariant. -/
theorem protocol_run_inv (idx : Nat → Nat) :
    ∀ ops rs rs', queue_status_inv rs → protocol_run idx ops rs = some rs' →
      queue_status_inv rs' := by
  intro ops
  induction ops with
  | nil =>
    intro rs rs' hinv h
    simp only [protocol_run] at h
    injection h with h
    subst h
    exact hinv
  | cons op ops ih =>
    intro rs rs' hinv h
    simp only [protocol_run] at h
    cases hstep : protocol_step idx rs op with
    | none =>
      simp only [hstep] at h
      exact Option.noConfusion h
    | some rs1 =>
      simp only [hstep] at h
      exact ih rs1 rs' (protocol_step_inv idx rs rs1 op hinv hstep) h

/-- C4 (amended): in every state reachable by the worker protocol from a state
satisfying the queue/status invariant, every reaction on the reaction queue
has status queued, and the invariant persists.  The converse direction of the
claimed iff is false between a pop and the matching done (see the
counterexample): a popped reaction keeps status queued while off the queue. -/
theorem c4_queue_status_amended (idx : Nat → Nat) (ops : List sched_op) (rs rs' : run_state)
    (hinv : queue_status_inv rs) (hrun : protocol_run idx ops rs = some rs') :
    (∀ r ∈ rs'.sched.queue, rs'.sched.statuses r = reaction_status.queued) ∧
    queue_status_inv rs' := by
  have h := protocol_run_inv idx ops rs rs' hinv hrun
  exact ⟨fun r hr => (h.2.2.1 r hr).1, h⟩

/-- Witness for amended C4: the fresh state, one trigger of reaction 0. -/
theorem c4_queue_status_amended_witness :
    queue_status_inv rs0 ∧
    protocol_run idx_id [sched_op.trigger 0] rs0 = some rs_trig0 ∧
    ((∀ r ∈ rs_trig0.sched.queue, rs_trig0.sched.statuses r = reaction_status.queued) ∧
      queue_status_inv rs_trig0) :=
  ⟨by decide, rfl,
   c4_queue_status_amended idx_id [sched_op.trigger 0] rs0 rs_trig0 (by decide) rfl⟩

/-- Counterexample to C4 as stated: after trigger of reaction 0 and the pop
inside lf_sched_get_ready_reaction, reaction 0 has status queued but the
reaction queue is empty, so membership and status queued are not equivalent
after a pop. -/
theorem c4_queue_iff_counterexample :
    (protocol_run idx_id [sched_op.trigger 0, sched_op.pop] rs0).map
        (fun rs => (rs.sched.statuses 0, rs.sched.queue)) =
      some (reaction_status.queued, []) ∧
    ¬ ((0 ∈ ([] : List Nat)) ↔ reaction_status.queued = reaction_status.queued) := by
  decide

/-- C5 (code bug): lf_sched_init allocates exactly one queue slot, yet from
the post-init level 1 with max_reaction_level 1 (reachable by passing params
with a two-entry num_reactions_per_level) and the empty executing queue that
is the precondition of the distribute call, the distribute loop advances the
level to 2 and inspects triggered_reactions index 1, which is outside the
one-slot array — so the inspected index is not 0 and the level at inspection
is not 1. -/
theorem c5_distribute_out_of_bounds :
    (init_sched_instance none 2 none).1.map (fun i => i.next_reaction_level) = some 1 ∧
    (init_sched_instance none 2
        (some { num_reactions_per_level := some [3, 4],
                num_reactions_per_level_size := 2 })).1.map
      (fun i => i.max_reaction_level) = some 1 ∧
    (_lf_sched_distribute_ready_reactions lf_sched_init_triggered_reactions 2 1 1).1 = [1] ∧
    lf_sched_init_triggered_reactions.length = 1 ∧
    ¬ (1 < lf_sched_init_triggered_reactions.length) := by
  decide

/-- Counterexample to C9 as stated: with params non-NULL, size 5 and a NULL
num_reactions_per_level array, the claim demands max_reaction_level = 5 - 1 =
4, but init_sched_instance leaves the calloc-zeroed value 0 (neither branch of
the code assigns: the first requires size 0 or NULL params, the second a
non-NULL array). -/
theorem c9_init_max_level_counterexample :
    (init_sched_instance none 4
        (some { num_reactions_per_level := none, num_reactions_per_level_size := 5 })).1.map
      (fun i => i.max_reaction_level) = some 0 ∧
    (5 : Nat) - 1 = 4 ∧ (0 : Nat) ≠ 4 ∧ DEFAULT_MAX_REACTION_LEVEL ≠ 0 := by
  decide

/-- C9 (amended): on the first call, max_reaction_level is
DEFAULT_MAX_REACTION_LEVEL when params is NULL; when params is non-NULL it is
num_reactions_per_level_size - 1 in wrapping size_t arithmetic whenever the
num_reactions_per_level array is non-NULL (regardless of the size, so size 0
yields 2^64 - 1), and otherwise it is DEFAULT_MAX_REACTION_LEVEL if the size
is 0 and the calloc-zeroed value 0 if the size is nonzero; in addition
next_reaction_level is set to 1, and any later call returns immediately with
the instance unchanged. -/
theorem c9_init_sched_instance_amended (nw : Nat) (params : Option sched_params_t) :
    init_sched_instance none nw params =
      (some { max_reaction_level :=
                match params with
                | none => DEFAULT_MAX_REACTION_LEVEL
                | some p =>
                  match p.num_reactions_per_level with
                  | some _ =>
                    (p.num_reactions_per_level_size + (SIZE_T_COUNT - 1)) % SIZE_T_COUNT
                  | none =>
                    if p.num_reactions_per_level_size = 0 then DEFAULT_MAX_REACTION_LEVEL
                    else 0,
              number_of_workers := nw, next_reaction_level := 1, should_stop := false },
        true) ∧
    (∀ inst : sched_instance_t,
      init_sched_instance (some inst) nw params = (some inst, false)) := by
  constructor
  · cases params with
    | none => rfl
    | some p =>
      cases hp : p.num_reactions_per_level with
      | none =>
        by_cases hz : p.num_reactions_per_level_size = 0 <;>
          simp [init_sched_instance, hp, hz]
      | some l =>
        by_cases hz : p.num_reactions_per_level_size = 0 <;>
          simp [init_sched_instance, hp, hz]
  · intro inst
    rfl

/-- C10 (code bug): an interleaving of two workers in which reaction 2 (level
2) begins executing while reaction 1 (level 1) has begun and not completed.
Reactions 0 and 1 (level 1) are triggered and popped by the two workers; the
worker running reaction 0 triggers the downstream reaction 2 (level 2), which
lands in the single shared queue, finishes reaction 0, and pops again: it
receives reaction 2 while reaction 1 is still executing (still in the
executing set with status queued). -/
theorem c10_level_order_violated :
    (protocol_run idx_levels
        [sched_op.trigger 0, sched_op.trigger 1, sched_op.pop, sched_op.pop,
          sched_op.trigger 2, sched_op.done 0] rs0).map
        (fun rs => (rs.executing, rs.sched.statuses 1, rs.sched.queue)) =
      some ([1], reaction_status.queued, [2]) ∧
    (protocol_run idx_levels
        [sched_op.trigger 0, sched_op.trigger 1, sched_op.pop, sched_op.pop,
          sched_op.trigger 2, sched_op.done 0, sched_op.pop] rs0).map
        (fun rs => rs.executing) = some [2, 1] ∧
    lf_level_of 1 = 1 ∧ lf_level_of 2 = 2 := by
  decide
